import Mathlib

/-!
Verification of the North Herts Council waste-collection source
(`custom_components/waste_collection_schedule/waste_collection_schedule/source/northherts_gov_uk.py`).

The Python module is shallowly embedded: JSON-like runtime values become the
inductive `JVal`, Python string builtins (`str.strip`, `str.lower`,
`str.endswith`, substring tests, `str.split`-style splitting) are modelled as
character-list functions, the two regular expressions of the module
(`POSTCODE_PATTERN` and `ISO_DATE_PATTERN`) are modelled by explicit
backtracking matchers over character lists restricted to the ASCII character
classes, and code that can raise a Python exception returns `Except String`.
-/

/-! ## Character classes (ASCII restriction of the Python `re` classes) -/

/-- ASCII letter, the case-insensitive `[A-Z]` of `POSTCODE_PATTERN`. -/
def isLetterC (c : Char) : Bool :=
  (65 ≤ c.toNat && c.toNat ≤ 90) || (97 ≤ c.toNat && c.toNat ≤ 122)

/-- ASCII digit, the `\d` class. -/
def isDigitC (c : Char) : Bool :=
  48 ≤ c.toNat && c.toNat ≤ 57

/-- ASCII whitespace, the `\s` class and the set stripped by `str.strip`. -/
def isSpaceC (c : Char) : Bool :=
  c.toNat = 32 || c.toNat = 9 || c.toNat = 10 || c.toNat = 13 || c.toNat = 12 || c.toNat = 11

/-- The `[A-Z\d]` class (case-insensitive): letter or digit. -/
def isAlnumC (c : Char) : Bool := isLetterC c || isDigitC c

/-- Word character, the `\w` class backing the `\b` boundaries. -/
def isWordC (c : Char) : Bool := isLetterC c || isDigitC c || c = '_'

/-- ASCII lower-casing of one character, modelling `str.lower`. -/
def lowerChar (c : Char) : Char :=
  if 65 ≤ c.toNat ∧ c.toNat ≤ 90 then Char.ofNat (c.toNat + 32) else c

/-- ASCII upper-casing of one character, modelling `str.upper`. -/
def upperChar (c : Char) : Char :=
  if 97 ≤ c.toNat ∧ c.toNat ≤ 122 then Char.ofNat (c.toNat - 32) else c

/-! ## String builtins as character-list functions -/

/-- `str.lower`. -/
def lowerStr (s : String) : String := String.mk (s.data.map lowerChar)

/-- `str.upper`. -/
def upperStr (s : String) : String := String.mk (s.data.map upperChar)

def dropWhileSpace : List Char → List Char
  | [] => []
  | c :: cs => if isSpaceC c then dropWhileSpace cs else c :: cs

/-- `str.strip` on a character list. -/
def trimList (l : List Char) : List Char :=
  ((dropWhileSpace l).reverse |> dropWhileSpace).reverse

/-- `str.strip`. -/
def trimStr (s : String) : String := String.mk (trimList s.data)

/-- Does `hay` start with `needle`? -/
def listStartsWith : List Char → List Char → Bool
  | [], _ => true
  | _ :: _, [] => false
  | a :: as, b :: bs => a = b && listStartsWith as bs

/-- Python substring test `needle in hay`. -/
def listContains (hay needle : List Char) : Bool :=
  match hay with
  | [] => listStartsWith needle []
  | _ :: t => listStartsWith needle hay || listContains t needle

/-- Python `needle in hay` on strings. -/
def strContains (hay needle : String) : Bool := listContains hay.data needle.data

/-- Python `s.endswith(suf)`. -/
def strEndsWith (s suf : String) : Bool := listStartsWith suf.data.reverse s.data.reverse

/-- Python truthiness of a string (`if s:`). -/
def strTruthy (s : String) : Bool := !s.data.isEmpty

/-- `" ".join(...)` over already-filtered parts. -/
def joinWithSpace (l : List String) : String := String.intercalate " " l

/-! ## Calendar dates (`datetime.date`) -/

structure PDate where
  y : Nat
  m : Nat
  d : Nat
deriving DecidableEq

/-- Calendar order on dates (the order Python uses to sort `date` values). -/
def PDate.le (a b : PDate) : Prop :=
  a.y < b.y ∨ (a.y = b.y ∧ (a.m < b.m ∨ (a.m = b.m ∧ a.d ≤ b.d)))

instance : DecidableRel PDate.le := fun a b =>
  inferInstanceAs (Decidable (a.y < b.y ∨ (a.y = b.y ∧ (a.m < b.m ∨ (a.m = b.m ∧ a.d ≤ b.d)))))

instance : IsTotal PDate PDate.le :=
  ⟨by intro a b; unfold PDate.le; omega⟩

instance : IsTrans PDate PDate.le :=
  ⟨by intro a b c hab hbc; unfold PDate.le at hab hbc ⊢; omega⟩

def isLeapYear (y : Nat) : Bool := y % 4 = 0 && (y % 100 ≠ 0 || y % 400 = 0)

def daysInMonth (y m : Nat) : Nat :=
  if m = 2 then (if isLeapYear y then 29 else 28)
  else if m = 4 ∨ m = 6 ∨ m = 9 ∨ m = 11 then 30
  else 31

/-- `datetime.date(y, m, d)` constructor validation (raises `ValueError`
on an out-of-range component, modelled as `none`). -/
def mkValidDate (y m d : Nat) : Option PDate :=
  if 1 ≤ y ∧ 1 ≤ m ∧ m ≤ 12 ∧ 1 ≤ d ∧ d ≤ daysInMonth y m then some ⟨y, m, d⟩ else none

/-! ## JSON-like runtime values -/

/-- A Python runtime value as it can occur inside the JSON payloads handled by
the module, plus the native `datetime`/`date` values mentioned by
`_parse_date_string`. -/
inductive JVal where
  | null
  | bool (b : Bool)
  | num (n : Int)
  | str (s : String)
  | pydate (d : PDate)
  | pydatetime (d : PDate)
  | list (xs : List JVal)
  | obj (kvs : List (String × JVal))

/-- Python truthiness (`if value:`). -/
def truthy : JVal → Bool
  | .null => false
  | .bool b => b
  | .num n => n != 0
  | .str s => strTruthy s
  | .pydate _ => true
  | .pydatetime _ => true
  | .list xs => !xs.isEmpty
  | .obj kvs => !kvs.isEmpty

/-- `a or b` for Python values. -/
def pyOr (a b : JVal) : JVal := if truthy a then a else b

/-- `dict.get(k)`: the stored value, or `None` when the key is absent. -/
def pyGetField (kvs : List (String × JVal)) (k : String) : JVal :=
  match kvs.find? (fun kv => kv.1 == k) with
  | some kv => kv.2
  | none => .null

/-- Modelled from the Python `str()` builtin on the value shapes above; the
rendering of containers is abbreviated (no claim depends on it). -/
def pyStr : JVal → String
  | .null => "None"
  | .bool true => "True"
  | .bool false => "False"
  | .num n => toString n
  | .str s => s
  | .pydate d => toString d.y ++ "-" ++ toString d.m ++ "-" ++ toString d.d
  | .pydatetime d => toString d.y ++ "-" ++ toString d.m ++ "-" ++ toString d.d
  | .list _ => "[...]"
  | .obj _ => "{...}"

/-! ## `POSTCODE_PATTERN` : `([A-Z]{1,2}\d[A-Z\d]?)\s*(\d[A-Z]{2})`, IGNORECASE

Modelled as an explicit leftmost-search backtracking matcher returning the two
capture groups as character lists. -/

def oorElse (a b : Option α) : Option α :=
  match a with
  | some x => some x
  | none => b

def skipSpaces : List Char → List Char
  | [] => []
  | c :: cs => if isSpaceC c then skipSpaces cs else c :: cs

/-- `(\d[A-Z]{2})` at the current position (trailing input ignored). -/
def matchInward : List Char → Option (List Char)
  | d :: a :: b :: _ =>
    if isDigitC d && isLetterC a && isLetterC b then some [d, a, b] else none
  | _ => none

/-- After `[A-Z]{1,2}\d` has matched `g`, match `[A-Z\d]?\s*(\d[A-Z]{2})`:
the optional alphanumeric is tried greedily first, with backtracking. -/
def matchAfterOutward (g : List Char) (rest : List Char) : Option (List Char × List Char) :=
  oorElse
    (match rest with
     | c :: rest2 =>
       if isAlnumC c then
         (matchInward (skipSpaces rest2)).map (fun g2 => (g ++ [c], g2))
       else none
     | [] => none)
    ((matchInward (skipSpaces rest)).map (fun g2 => (g, g2)))

/-- The whole pattern anchored at the current position; `[A-Z]{1,2}` is
greedy (two letters tried before one). -/
def matchPostcodeAt : List Char → Option (List Char × List Char)
  | c0 :: c1 :: rest =>
    if isLetterC c0 then
      if isLetterC c1 then
        oorElse
          (match rest with
           | d :: rest2 => if isDigitC d then matchAfterOutward [c0, c1, d] rest2 else none
           | [] => none)
          (if isDigitC c1 then matchAfterOutward [c0, c1] rest else none)
      else if isDigitC c1 then matchAfterOutward [c0, c1] rest
      else none
    else none
  | _ => none

/-- `re.search`: try each position left to right. -/
def postcodeSearch : List Char → Option (List Char × List Char)
  | [] => none
  | c :: cs => oorElse (matchPostcodeAt (c :: cs)) (postcodeSearch cs)

/-- The body of `normalise_postcode` once a (non-empty) string is in hand:
search, then rejoin the upper-cased groups with one space. -/
def normaliseCore (s : String) : Option String :=
  (postcodeSearch s.data).map
    (fun g => String.mk (g.1.map upperChar ++ ' ' :: g.2.map upperChar))

/-- `normalise_postcode(text: str | None) -> str | None`. -/
def normalise_postcode (text : Option String) : Option String :=
  match text with
  | none => none
  | some t => if strTruthy t then normaliseCore t else none

/-! ## `ISO_DATE_PATTERN` : `\d{4}-\d{2}-\d{2}` -/

/-- The pattern anchored at the current position; on success returns the
matched ten characters. -/
def isoMatchAt : List Char → Option (List Char)
  | a :: b :: c :: d :: '-' :: e :: f :: '-' :: g :: h :: _ =>
    if isDigitC a && isDigitC b && isDigitC c && isDigitC d &&
       isDigitC e && isDigitC f && isDigitC g && isDigitC h then
      some [a, b, c, d, '-', e, f, '-', g, h]
    else none
  | _ => none

/-- `ISO_DATE_PATTERN.search`: leftmost match. -/
def isoSearch : List Char → Option (List Char)
  | [] => none
  | c :: cs => oorElse (isoMatchAt (c :: cs)) (isoSearch cs)

/-! ## Date parsing (`_parse_date_string`) -/

def digitVal (c : Char) : Nat := c.toNat - 48

def digitsToNat (cs : List Char) : Nat := cs.foldl (fun n c => n * 10 + digitVal c) 0

/-- One `HH:MM[:SS[.frac]][±HH:MM | ±HHMM | ±HH]` time suffix, as accepted by
`datetime.fromisoformat`; only validity is needed since the result is
truncated to a date. -/
def validIsoClock (cs : List Char) : Bool :=
  match cs with
  | h1 :: h2 :: ':' :: m1 :: m2 :: rest =>
    if isDigitC h1 && isDigitC h2 && isDigitC m1 && isDigitC m2 &&
       digitsToNat [h1, h2] < 24 && digitsToNat [m1, m2] < 60 then
      match rest with
      | [] => true
      | ':' :: s1 :: s2 :: rest2 =>
        if isDigitC s1 && isDigitC s2 && digitsToNat [s1, s2] < 60 then
          match rest2 with
          | [] => true
          | '.' :: frac => !frac.isEmpty && frac.all isDigitC
          | _ => false
        else false
      | _ => false
    else false
  | _ => false

/-- A trailing UTC-offset suffix `±HH:MM`, `±HHMM` or `±HH`. -/
def validIsoOffset (cs : List Char) : Bool :=
  match cs with
  | sg :: o1 :: o2 :: rest =>
    if (sg = '+' || sg = '-') && isDigitC o1 && isDigitC o2 && digitsToNat [o1, o2] < 24 then
      match rest with
      | [] => true
      | ':' :: p1 :: p2 :: [] => isDigitC p1 && isDigitC p2 && digitsToNat [p1, p2] < 60
      | p1 :: p2 :: [] => isDigitC p1 && isDigitC p2 && digitsToNat [p1, p2] < 60
      | _ => false
    else false
  | _ => false

/-- Split a char list at the first `+` or `-` (an offset can only start there
after the clock part). -/
def splitAtSign (cs : List Char) : List Char × List Char :=
  match cs with
  | [] => ([], [])
  | c :: rest =>
    if c = '+' || c = '-' then ([], c :: rest)
    else
      let p := splitAtSign rest
      (c :: p.1, p.2)

/-- Modelled from the library routine `datetime.fromisoformat`, restricted to
the extended format `YYYY-MM-DD[<sep>HH:MM[:SS[.frac]][offset]]` the remote
API emits; on any other shape the model fails like the library raises
`ValueError`. The result is truncated to the date by the caller. -/
def pyFromIsoformat (s : String) : Option PDate :=
  match s.data with
  | y1 :: y2 :: y3 :: y4 :: '-' :: m1 :: m2 :: '-' :: d1 :: d2 :: rest =>
    if isDigitC y1 && isDigitC y2 && isDigitC y3 && isDigitC y4 &&
       isDigitC m1 && isDigitC m2 && isDigitC d1 && isDigitC d2 then
      match mkValidDate (digitsToNat [y1, y2, y3, y4]) (digitsToNat [m1, m2])
          (digitsToNat [d1, d2]) with
      | none => none
      | some date =>
        match rest with
        | [] => some date
        | _ :: timePart =>
          let p := splitAtSign timePart
          if validIsoClock p.1 && (p.2.isEmpty || validIsoOffset p.2) then some date
          else none
    else none
  | _ => none

/-- `datetime.strptime(s, "%Y-%m-%d")` where `s` is a `\d{4}-\d{2}-\d{2}`
match; only the `datetime` range validation can still fail. -/
def pyStrptimeYMD (cs : List Char) : Option PDate :=
  match cs with
  | [a, b, c, d, '-', e, f, '-', g, h] =>
    if isDigitC a && isDigitC b && isDigitC c && isDigitC d &&
       isDigitC e && isDigitC f && isDigitC g && isDigitC h then
      mkValidDate (digitsToNat [a, b, c, d]) (digitsToNat [e, f]) (digitsToNat [g, h])
    else none
  | _ => none

/-- Split on a separator character (used to model the `%d<sep>%m<sep>%Y`
formats, whose directives cannot themselves match the separator). -/
def splitOnCharList (sep : Char) (l : List Char) : List (List Char) :=
  match l with
  | [] => [[]]
  | c :: rest =>
    let ps := splitOnCharList sep rest
    if c = sep then [] :: ps
    else
      match ps with
      | p :: pr => (c :: p) :: pr
      | [] => [[c]]

/-- `datetime.strptime(candidate, "%d<sep>%m<sep>%Y")`: day and month are one
or two digits, the year exactly four, the whole string must be consumed, and
the constructed date must be valid. -/
def pyStrptimeDMY (sep : Char) (s : String) : Option PDate :=
  match splitOnCharList sep s.data with
  | [ds, ms, ys] =>
    if 1 ≤ ds.length && ds.length ≤ 2 && ds.all isDigitC &&
       1 ≤ ms.length && ms.length ≤ 2 && ms.all isDigitC &&
       ys.length = 4 && ys.all isDigitC then
      mkValidDate (digitsToNat ys) (digitsToNat ms) (digitsToNat ds)
    else none
  | _ => none

/-- `_parse_date_string(value)`: total — every failure path degrades to
`none`. -/
def pyParseDate (v : JVal) : Option PDate :=
  match v with
  | .pydatetime d => some d
  | .str s =>
    let candidate := trimStr s
    if !strTruthy candidate then none
    else
      let isoCand :=
        if strEndsWith candidate "Z" then
          String.mk (candidate.data.take (candidate.data.length - 1)) ++ "+00:00"
        else candidate
      match pyFromIsoformat isoCand with
      | some d => some d
      | none =>
        match
          (match isoSearch candidate.data with
           | some g => pyStrptimeYMD g
           | none => none) with
        | some d => some d
        | none => oorElse (pyStrptimeDMY '/' candidate) (pyStrptimeDMY '-' candidate)
  | _ => none

/-! ## `_extract_dates` -/

/-- `x or []` before iterating. -/
def pyOrList (v : JVal) : JVal := if truthy v then v else .list []

/-- `x or {}`. -/
def pyOrObj (v : JVal) : JVal := if truthy v then v else .obj []

/-- Python iteration as used by `list.extend`: strings yield their characters,
lists their elements, dicts their keys; anything else raises `TypeError`. -/
def jIterE : JVal → Except String (List JVal)
  | .str s => .ok (s.data.map (fun c => .str (String.mk [c])))
  | .list xs => .ok xs
  | .obj kvs => .ok (kvs.map (fun kv => .str kv.1))
  | _ => .error "TypeError: object is not iterable"

/-- The per-entry expression of the `futureCollections` generator. -/
def futureEntryValue (e : JVal) : JVal :=
  match e with
  | .obj kvs =>
    pyOr (pyGetField kvs "collectionDate")
      (pyOr (pyGetField kvs "nextCollectionDate") (pyGetField kvs "date"))
  | _ => e

/-- The `next_collection` block: `details.get("nextCollection") or {}` followed
by `.get` calls, which raise `AttributeError` on a truthy non-dict. -/
def nextCollectionValueE (kvs : List (String × JVal)) : Except String JVal :=
  match pyOrObj (pyGetField kvs "nextCollection") with
  | .obj nkvs =>
    .ok (pyOr (pyGetField nkvs "collectionDate")
      (pyOr (pyGetField nkvs "nextCollectionDate") (pyGetField nkvs "date")))
  | _ => .error "AttributeError: object has no attribute get"

/-- The `values` list built by `_extract_dates` before parsing. -/
def collectValuesE (kvs : List (String × JVal)) : Except String (List JVal) := do
  let base := [pyGetField kvs "collectionDate", pyGetField kvs "nextCollectionDate",
    pyGetField kvs "nextCollection"]
  let cds ← jIterE (pyOrList (pyGetField kvs "collectionDates"))
  let fcs ← jIterE (pyOrList (pyGetField kvs "futureCollections"))
  let ncVal ← nextCollectionValueE kvs
  .ok (base ++ cds ++ fcs.map futureEntryValue ++ [ncVal])

/-- `sorted({...})` over the successfully parsed dates. -/
def sortedDateSet (vs : List JVal) : List PDate :=
  List.insertionSort PDate.le (vs.filterMap pyParseDate).dedup

/-- `_extract_dates(details)` on a dict. -/
def extractDatesE (kvs : List (String × JVal)) : Except String (List PDate) := do
  let vs ← collectValuesE kvs
  .ok (sortedDateSet vs)

/-- `_extract_dates` at its call site, where `details` is any truthy value:
attribute access on a non-dict raises. -/
def extractDatesJE : JVal → Except String (List PDate)
  | .obj kvs => extractDatesE kvs
  | _ => .error "AttributeError: object has no attribute get"

/-! ## `_address_to_string` and `_clean_type_name` -/

/-- `ADDRESS_FIELDS`, in the fixed priority order of the source. -/
def ADDRESS_FIELDS : List String :=
  ["fullAddress", "singleLineAddress", "address", "addressLine1", "addressLine2",
   "addressLine3", "town", "buildingName", "buildingNumber", "propertyNumber",
   "street", "postcode"]

/-- Is a field value kept by `value not in (None, "")`? -/
def keepFieldValue : JVal → Bool
  | .null => false
  | .str s => !s.data.isEmpty
  | _ => true

/-- `_address_to_string(address)` for a dict. -/
def joinAddressFields (kvs : List (String × JVal)) : String :=
  trimStr (joinWithSpace
    ((ADDRESS_FIELDS.map (pyGetField kvs)).filterMap
      (fun v => if keepFieldValue v then some (pyStr v) else none)))

/-- `_address_to_string`, raising `AttributeError` on a non-dict. -/
def addressToStringE : JVal → Except String String
  | .obj kvs => .ok (joinAddressFields kvs)
  | _ => .error "AttributeError: object has no attribute get"

/-- The strip-suffixes part of `_clean_type_name` (before the `or name`
fallback). -/
def cleanTypeNameCore (name : String) : String :=
  let cleaned := trimStr name
  let cleaned :=
    if strEndsWith (lowerStr cleaned) "collection" then
      trimStr (String.mk (cleaned.data.take (cleaned.data.length - 10)))
    else cleaned
  let cleaned :=
    if strEndsWith (lowerStr cleaned) "bin" then
      trimStr (String.mk (cleaned.data.take (cleaned.data.length - 3)))
    else cleaned
  cleaned

/-- `_clean_type_name(name)`: `return cleaned or name`. -/
def cleanTypeName (name : String) : String :=
  if strTruthy (cleanTypeNameCore name) then cleanTypeNameCore name else name

/-! ## `_icon_for` -/

def ICON_MAP : List (String × String) :=
  [("Refuse Collection", "mdi:trash-can"), ("Refuse", "mdi:trash-can"),
   ("Residual Waste", "mdi:trash-can"), ("Mixed Recycling Collection", "mdi:recycle"),
   ("Mixed Recycling", "mdi:recycle"), ("Dry Recycling", "mdi:recycle"),
   ("Garden Collection", "mdi:leaf"), ("Garden Waste", "mdi:leaf"),
   ("Food Collection", "mdi:food-apple"), ("Food Waste", "mdi:food-apple"),
   ("Paper/Card Collection", "mdi:package-variant"), ("Paper & Card", "mdi:package-variant")]

def ICON_KEYWORDS : List (String × String) :=
  [("refuse", "mdi:trash-can"), ("residual", "mdi:trash-can"), ("recycle", "mdi:recycle"),
   ("recycling", "mdi:recycle"), ("garden", "mdi:leaf"), ("food", "mdi:food-apple"),
   ("paper", "mdi:package-variant"), ("card", "mdi:package-variant")]

/-- `_icon_for(label)`: exact table lookup, then keyword substring search in
insertion order. -/
def iconFor (label : String) : Option String :=
  match ICON_MAP.find? (fun kv => kv.1 == label) with
  | some kv => some kv.2
  | none =>
    (ICON_KEYWORDS.find? (fun kv => strContains (lowerStr label) kv.1)).map (fun kv => kv.2)

/-! ## The `Source` constructor arguments -/

structure SourceArgs where
  address_name_numer : Option String := none
  address_street : Option String := none
  street_town : Option String := none
  address_postcode : Option String := none

/-- `" ".join(part.strip() for part in parts if isinstance(part, str) and part.strip())`. -/
def joinParts (parts : List (Option String)) : String :=
  joinWithSpace (((parts.filterMap id).map trimStr).filter strTruthy)

/-- `Source._compose_search_query`. -/
def composeSearchQuery (s : SourceArgs) : String :=
  joinParts [s.address_name_numer, s.address_street, s.street_town, s.address_postcode]

/-- The `address_line` local of `_lookup_addresses`. -/
def addressLineOf (s : SourceArgs) : String :=
  joinParts [s.address_name_numer, s.address_street]

/-! ## `_lookup_addresses` -/

/-- The fixed ordered attempt list of `_lookup_addresses`. -/
def attemptsList (s : SourceArgs) (query : String) (postcode : Option String) :
    List (String × Option String) :=
  [("postcode", postcode), ("postcode", s.address_postcode), ("address", some query),
   ("query", some query), ("address", some (addressLineOf s)),
   ("query", some (addressLineOf s)), ("query", s.address_street)]

/-- The dedup key `(param, cleaned.lower())`. -/
def attemptKey (a : String × String) : String × String := (a.1, lowerStr a.2)

/-- An address-search response is the JSON object returned by
`response.json()`; `payload_json.get("addresses")` kept only when it is a
list. -/
def listAddr (resp : List (String × JVal)) : Option (List JVal) :=
  match pyGetField resp "addresses" with
  | .list xs => some xs
  | _ => none

/-- The attempt loop of `_lookup_addresses`: threads the `seen` set, records
every network call it issues, and stops at the first response whose
`addresses` field is a list. -/
def runAttempts (oracle : String → String → List (String × JVal)) :
    List (String × Option String) → List (String × String) →
    List (String × String) × Option (List JVal)
  | [], _ => ([], none)
  | (param, value) :: rest, seen =>
    let cleaned := trimStr (value.getD "")
    if !strTruthy cleaned then runAttempts oracle rest seen
    else if (param, lowerStr cleaned) ∈ seen then runAttempts oracle rest seen
    else
      match listAddr (oracle param cleaned) with
      | some xs => ([(param, cleaned)], some xs)
      | none =>
        let pr := runAttempts oracle rest ((param, lowerStr cleaned) :: seen)
        ((param, cleaned) :: pr.1, pr.2)

/-- `Source._lookup_addresses`, instrumented with the list of issued calls;
exhaustion raises `ValueError`. -/
def lookupAddresses (s : SourceArgs) (oracle : String → String → List (String × JVal))
    (query : String) (postcode : Option String) :
    List (String × String) × Except String (List JVal) :=
  let pr := runAttempts oracle (attemptsList s query postcode) []
  (pr.1,
    match pr.2 with
    | some xs => .ok xs
    | none => .error "No matching addresses were returned by the API.")

/-- Follows the spec wording for the fallback chain: the fixed attempt list
with empty-after-trimming texts dropped and any attempt dropped whose
`(parameter name, lower-cased trimmed text)` pair duplicates an earlier kept
attempt, order preserved. -/
def specFilterAttempts : List (String × Option String) → List (String × String) →
    List (String × String)
  | [], _ => []
  | (param, value) :: rest, seen =>
    let cleaned := trimStr (value.getD "")
    if !strTruthy cleaned then specFilterAttempts rest seen
    else if (param, lowerStr cleaned) ∈ seen then specFilterAttempts rest seen
    else (param, cleaned) :: specFilterAttempts rest ((param, lowerStr cleaned) :: seen)

/-- Scanning a pure attempt list: issue each call in order, stop at the first
response carrying a list-typed `addresses` field. -/
def scanCalls (oracle : String → String → List (String × JVal)) :
    List (String × String) → List (String × String) × Option (List JVal)
  | [] => ([], none)
  | (param, cleaned) :: rest =>
    match listAddr (oracle param cleaned) with
    | some xs => ([(param, cleaned)], some xs)
    | none =>
      let pr := scanCalls oracle rest
      ((param, cleaned) :: pr.1, pr.2)

/-! ## `_select_address` -/

/-- `query.lower() if query else ""`. -/
def queryLowerOf (query : String) : String :=
  if strTruthy query then lowerStr query else ""

/-- `postcode.lower() if postcode else None`. -/
def postcodeLowerOf (postcode : Option String) : Option String :=
  match postcode with
  | some p => if strTruthy p then some (lowerStr p) else none
  | none => none

/-- `normalise_postcode` as invoked on an arbitrary field value: a falsy value
short-circuits to `None`, a truthy non-string raises `TypeError` inside
`re.search`. -/
def normalisePostcodeEV (v : JVal) : Except String (Option String) :=
  if !truthy v then .ok none
  else
    match v with
    | .str s => .ok (normaliseCore s)
    | _ => .error "TypeError: expected string or bytes-like object"

/-- `\b` at position `i` of `l` (exactly one neighbour is a word char). -/
def wordCharAt (l : List Char) (i : Nat) : Bool :=
  match l.get? i with
  | some c => isWordC c
  | none => false

def boundaryAt (l : List Char) : Nat → Bool
  | 0 => wordCharAt l 0
  | j + 1 => (wordCharAt l j).xor (wordCharAt l (j + 1))

/-- `re.search(rf"\b{re.escape(number)}\b", lowered)`: some occurrence of the
literal `number` flanked by word boundaries. -/
def wordSearch (num hay : List Char) : Bool :=
  (List.range (hay.length + 1)).any fun i =>
    listStartsWith num (hay.drop i) && boundaryAt hay i && boundaryAt hay (i + num.length)

/-- The `+100 / +60` postcode component of the score. -/
def pcScore (postcodeLower : Option String) (candPc : Option String) (lowered : String) : Int :=
  match postcodeLower with
  | none => 0
  | some pl =>
    if (match candPc with
        | some cp => lowerStr cp == pl
        | none => false) then 100
    else if strContains lowered pl then 60
    else 0

/-- The `+30` street component. -/
def streetScore (s : SourceArgs) (lowered : String) : Int :=
  match s.address_street with
  | some st => if strTruthy st && strContains lowered (lowerStr st) then 30 else 0
  | none => 0

/-- The `+25` whole-word house-number component. -/
def numberScore (s : SourceArgs) (lowered : String) : Int :=
  match s.address_name_numer with
  | some n =>
    if strTruthy n && wordSearch (lowerStr (trimStr n)).data lowered.data then 25 else 0
  | none => 0

/-- The `+15` town component. -/
def townScore (s : SourceArgs) (lowered : String) : Int :=
  match s.street_town with
  | some t => if strTruthy t && strContains lowered (lowerStr t) then 15 else 0
  | none => 0

/-- The `+10` composed-query component. -/
def queryScore (queryLower : String) (lowered : String) : Int :=
  if strTruthy queryLower && strContains lowered queryLower then 10 else 0

/-- The additive score of the selection loop body. -/
def scoreOf (s : SourceArgs) (queryLower : String) (postcodeLower : Option String)
    (lowered : String) (candPc : Option String) : Int :=
  pcScore postcodeLower candPc lowered + streetScore s lowered + numberScore s lowered +
    townScore s lowered + queryScore queryLower lowered

/-- One candidate's score, with the exceptions the loop body can raise. -/
def scoreE (s : SourceArgs) (queryLower : String) (postcodeLower : Option String) :
    JVal → Except String Int
  | .obj kvs => do
    let lowered := lowerStr (joinAddressFields kvs)
    let candPc ← normalisePostcodeEV (pyGetField kvs "postcode")
    .ok (scoreOf s queryLower postcodeLower lowered candPc)
  | _ => .error "AttributeError: object has no attribute get"

/-- The `for address in addresses` loop of `_select_address`, threading
`best_score` and `best_address`. -/
def selectLoop (s : SourceArgs) (queryLower : String) (postcodeLower : Option String) :
    List JVal → Int → Option JVal → Except String (Int × Option JVal)
  | [], best, bestA => .ok (best, bestA)
  | a :: rest, best, bestA =>
    match scoreE s queryLower postcodeLower a with
    | .error e => .error e
    | .ok sc =>
      if sc > best then selectLoop s queryLower postcodeLower rest sc (some a)
      else selectLoop s queryLower postcodeLower rest best bestA

/-- `Source._select_address`. -/
def selectAddress (s : SourceArgs) (addresses : List JVal) (query : String)
    (postcode : Option String) : Except String JVal :=
  match addresses with
  | [] => .error "Address lookup returned no results."
  | a0 :: _ =>
    match selectLoop s (queryLowerOf query) (postcodeLowerOf postcode) addresses (-1) none with
    | .error e => .error e
    | .ok (_, none) => .ok a0
    | .ok (best, some bA) => if best ≤ 0 then .ok a0 else .ok bA

/-! ## `_build_collections` and the tail of `fetch` -/

/-- An output record (`Collection(date=..., t=..., icon=...)`). -/
structure Collection where
  date : PDate
  t : String
  icon : Option String
deriving DecidableEq

/-- Ascending-by-date order used by `entries.sort(key=lambda item: item.date)`. -/
def entryLe (a b : Collection) : Prop := PDate.le a.date b.date

instance : DecidableRel entryLe := fun a b => inferInstanceAs (Decidable (PDate.le a.date b.date))

instance : IsTotal Collection entryLe :=
  ⟨fun a b => IsTotal.total (r := PDate.le) a.date b.date⟩

instance : IsTrans Collection entryLe :=
  ⟨fun a b c h1 h2 => IsTrans.trans (r := PDate.le) a.date b.date c.date h1 h2⟩

/-- `Source._collection_items`: prefer a truthy `collections` map (whose
`.items()` raises on a truthy non-dict), else scan keys ending in
`collectiondetails`. -/
def collectionItemsE (kvs : List (String × JVal)) : Except String (List (String × JVal)) :=
  let cs := pyGetField kvs "collections"
  if truthy cs then
    match cs with
    | .obj ckvs => .ok ckvs
    | _ => .error "AttributeError: object has no attribute items"
  else
    .ok (kvs.flatMap fun kv =>
      if strEndsWith (lowerStr kv.1) "collectiondetails" then
        match kv.2 with
        | .list entries =>
          entries.enum.filterMap fun ie =>
            if truthy ie.2 then some (kv.1 ++ "_" ++ toString (ie.1 + 1), ie.2) else none
        | v => if truthy v then [(kv.1, v)] else []
      else [])

/-- The inner `for collection_date in _extract_dates(details)` loop with the
`seen` set of `(date, label)` pairs. -/
def addDates (label : String) (icon : Option String) :
    List PDate → List (PDate × String) → List Collection →
    List (PDate × String) × List Collection
  | [], seen, entries => (seen, entries)
  | d :: ds, seen, entries =>
    if (d, label) ∈ seen then addDates label icon ds seen entries
    else addDates label icon ds ((d, label) :: seen) (entries ++ [⟨d, label, icon⟩])

/-- The outer block loop of `_build_collections`. -/
def buildLoop : List (String × JVal) → List (PDate × String) → List Collection →
    Except String (List (PDate × String) × List Collection)
  | [], seen, entries => .ok (seen, entries)
  | (key, details) :: rest, seen, entries =>
    if !truthy details then buildLoop rest seen entries
    else
      match details with
      | .obj dkvs =>
        let rawLabel := pyOr (pyGetField dkvs "containerDescription")
          (pyOr (pyGetField dkvs "containerName")
            (pyOr (pyGetField dkvs "collectionType") (.str key)))
        let label := cleanTypeName
          (match rawLabel with
           | .str s => s
           | v => pyStr v)
        match extractDatesE dkvs with
        | .error e => .error e
        | .ok ds =>
          let pr := addDates label (iconFor label) ds seen entries
          buildLoop rest pr.1 pr.2
      | _ => .error "AttributeError: object has no attribute get"

/-- `Source._build_collections(payload)`. -/
def buildCollectionsE (payload : JVal) : Except String (List Collection) := do
  match payload with
  | .obj pkvs =>
    match pyOr (pyGetField pkvs "wasteCollectionDates")
      (pyOr (pyGetField pkvs "WasteCollectionDates") (.obj pkvs)) with
    | .obj cdkvs => do
      let items ← collectionItemsE cdkvs
      let pr ← buildLoop items [] []
      .ok pr.2
    | _ => .error "AttributeError: object has no attribute get"
  | _ => .error "AttributeError: object has no attribute get"

/-- The tail of `Source.fetch` after the schedule payload is in hand: build
the entries, fail on an empty result, and sort ascending by date. -/
def fetchEntries (payload : JVal) : Except String (List Collection) := do
  let entries ← buildCollectionsE payload
  if entries.isEmpty then
    .error "No collection data returned for the selected address."
  else
    .ok (List.insertionSort entryLe entries)

/-! ## Auxiliary predicates and concrete scenario values used by the theorems -/

instance {ε α : Type} [DecidableEq ε] [DecidableEq α] : DecidableEq (Except ε α) := fun a b =>
  match a, b with
  | .ok x, .ok y =>
    if h : x = y then .isTrue (by rw [h]) else .isFalse (fun hc => h (by injection hc))
  | .error x, .error y =>
    if h : x = y then .isTrue (by rw [h]) else .isFalse (fun hc => h (by injection hc))
  | .ok _, .error _ => .isFalse (fun hc => Except.noConfusion hc)
  | .error _, .ok _ => .isFalse (fun hc => Except.noConfusion hc)

/-- A value `list.extend` can iterate without raising. -/
def Iterable (v : JVal) : Prop :=
  (∃ s, v = .str s) ∨ (∃ xs, v = .list xs) ∨ (∃ kvs, v = .obj kvs)

/-- A detail block whose three container fields have the shapes
`_extract_dates` can traverse without raising: `collectionDates` and
`futureCollections` falsy or iterable, `nextCollection` falsy or a dict. -/
def CleanDetails (kvs : List (String × JVal)) : Prop :=
  Iterable (pyOrList (pyGetField kvs "collectionDates")) ∧
  Iterable (pyOrList (pyGetField kvs "futureCollections")) ∧
  ∃ nkvs, pyOrObj (pyGetField kvs "nextCollection") = .obj nkvs

/-- A candidate record `_select_address` can score without raising: a dict
whose `postcode` field is falsy or a string. -/
def AddrOk (a : JVal) : Prop :=
  ∃ kvs, a = .obj kvs ∧
    (truthy (pyGetField kvs "postcode") = false ∨ ∃ s, pyGetField kvs "postcode" = .str s)

/-- The outward segment shapes of `POSTCODE_PATTERN`: one or two letters, a
digit, an optional alphanumeric. -/
inductive ValidOutward : List Char → Prop where
  | two (a d : Char) : isLetterC a = true → isDigitC d = true → ValidOutward [a, d]
  | threeA (a d x : Char) : isLetterC a = true → isDigitC d = true → isAlnumC x = true →
      ValidOutward [a, d, x]
  | threeB (a b d : Char) : isLetterC a = true → isLetterC b = true → isDigitC d = true →
      ValidOutward [a, b, d]
  | four (a b d x : Char) : isLetterC a = true → isLetterC b = true → isDigitC d = true →
      isAlnumC x = true → ValidOutward [a, b, d, x]

/-- The inward segment shape: a digit and two letters. -/
def ValidInward (l : List Char) : Prop :=
  ∃ d x y, l = [d, x, y] ∧ isDigitC d = true ∧ isLetterC x = true ∧ isLetterC y = true

/-- Fragments of the lookup scenarios: a postcode only. -/
def exArgs : SourceArgs := { address_postcode := some "SG4 9QY" }

/-- An address record returned by the second search attempt. -/
def exRecord : JVal := .obj [("uprn", .str "10023350201")]

/-- A lookup oracle whose `postcode` search answers with an empty `addresses`
list and whose `address` search answers with one record. -/
def exOracle : String → String → List (String × JVal) := fun param _ =>
  if param == "postcode" then [("addresses", .list [])]
  else if param == "address" then [("addresses", .list [exRecord])]
  else []

/-- The schedule payload of the end-to-end example. -/
def exPayload : JVal := .obj
  [("RefuseCollectionDetails", .obj [("collectionDate", .str "2024-03-04")]),
   ("RecyclingCollectionDetails", .obj [("nextCollection", .obj [("date", .str "2024-03-01")])])]

/-- A detail block covering every traversable field shape at once. -/
def exDetails : List (String × JVal) :=
  [("collectionDate", .str "2024-03-04"),
   ("collectionDates", .list [.str "2024-03-04", .str "not a date"]),
   ("futureCollections", .list [.obj [("date", .str "2024-03-11")], .str "junk"]),
   ("nextCollection", .obj [("date", .str "2024-03-18")])]

/-- Scoring scenario: street and postcode fragments. -/
def exScoreArgs : SourceArgs :=
  { address_street := some "Benslow Rise", address_postcode := some "SG4 9QY" }

/-- A candidate matching postcode (exactly, after normalization) and street. -/
def exGood : JVal :=
  .obj [("fullAddress", .str "26 Benslow Rise Hitchin"), ("postcode", .str "SG4 9QY")]

/-- A candidate matching only the composed query text. -/
def exBad : JVal := .obj [("fullAddress", .str "somewhere else")]

/-- A candidate matching nothing at all. -/
def exZero : JVal := .obj [("fullAddress", .str "unrelated place")]

/-- A record whose truthy non-string `postcode` field makes
`normalise_postcode` raise `TypeError` inside `_select_address`. -/
def exNumPostcode : JVal := .obj [("postcode", .num 12345)]

/-! ## Helper lemmas -/

theorem strTruthy_iff {s : String} : strTruthy s = true ↔ s ≠ "" := by
  unfold strTruthy
  rcases s with ⟨l⟩
  cases l <;> simp [String.ext_iff]

theorem digit_not_letter {c : Char} (h : isDigitC c = true) : isLetterC c = false := by
  unfold isDigitC at h
  unfold isLetterC
  simp only [Bool.and_eq_true, decide_eq_true_eq] at h
  simp only [Bool.or_eq_false_iff, Bool.and_eq_false_iff, decide_eq_false_iff_not, not_le]
  omega

theorem letter_not_digit {c : Char} (h : isLetterC c = true) : isDigitC c = false := by
  unfold isLetterC at h
  unfold isDigitC
  simp only [Bool.or_eq_true, Bool.and_eq_true, decide_eq_true_eq] at h
  simp only [Bool.and_eq_false_iff, decide_eq_false_iff_not, not_le]
  omega

theorem letter_not_space {c : Char} (h : isLetterC c = true) : isSpaceC c = false := by
  unfold isLetterC at h
  unfold isSpaceC
  simp only [Bool.or_eq_true, Bool.and_eq_true, decide_eq_true_eq] at h
  simp only [Bool.or_eq_false_iff, decide_eq_false_iff_not]
  omega

theorem digit_not_space {c : Char} (h : isDigitC c = true) : isSpaceC c = false := by
  unfold isDigitC at h
  unfold isSpaceC
  simp only [Bool.and_eq_true, decide_eq_true_eq] at h
  simp only [Bool.or_eq_false_iff, decide_eq_false_iff_not]
  omega

theorem space_not_alnum {c : Char} (h : isSpaceC c = true) : isAlnumC c = false := by
  unfold isSpaceC at h
  unfold isAlnumC isLetterC isDigitC
  simp only [Bool.or_eq_true, decide_eq_true_eq] at h
  simp only [Bool.or_eq_false_iff, Bool.and_eq_false_iff, decide_eq_false_iff_not, not_le]
  omega

theorem digit_alnum {c : Char} (h : isDigitC c = true) : isAlnumC c = true := by
  unfold isAlnumC
  simp [h]

theorem skipSpaces_cons_space {c : Char} {l : List Char} (h : isSpaceC c = true) :
    skipSpaces (c :: l) = skipSpaces l := by
  simp [skipSpaces, h]

theorem skipSpaces_cons_not_space {c : Char} {l : List Char} (h : isSpaceC c = false) :
    skipSpaces (c :: l) = c :: l := by
  simp [skipSpaces, h]

theorem skipSpaces_all_space {sep : List Char} (h : ∀ c ∈ sep, isSpaceC c = true)
    (l : List Char) : skipSpaces (sep ++ l) = skipSpaces l := by
  induction sep with
  | nil => rfl
  | cons c cs ih =>
    rw [List.cons_append, skipSpaces_cons_space (h c (List.mem_cons_self c cs))]
    exact ih (fun x hx => h x (List.mem_cons_of_mem c hx))

theorem matchInward_cons {d x y : Char} {r : List Char} (hd : isDigitC d = true)
    (hx : isLetterC x = true) (hy : isLetterC y = true) :
    matchInward (d :: x :: y :: r) = some [d, x, y] := by
  simp [matchInward, hd, hx, hy]

theorem matchInward_letter_head {x : Char} {l : List Char} (hx : isLetterC x = true) :
    matchInward (x :: l) = none := by
  match l with
  | [] => rfl
  | [a] => rfl
  | a :: b :: t => simp [matchInward, letter_not_digit hx]

theorem matchAfterOutward_inward {g sep : List Char} {d x y : Char} {r : List Char}
    (hsep : ∀ c ∈ sep, isSpaceC c = true) (hd : isDigitC d = true)
    (hx : isLetterC x = true) (hy : isLetterC y = true) :
    matchAfterOutward g (sep ++ d :: x :: y :: r) = some (g, [d, x, y]) := by
  have hskip : skipSpaces (sep ++ d :: x :: y :: r) = d :: x :: y :: r := by
    rw [skipSpaces_all_space hsep, skipSpaces_cons_not_space (digit_not_space hd)]
  match sep, hsep with
  | [], _ =>
    rw [List.nil_append] at hskip ⊢
    have hskip2 : skipSpaces (x :: y :: r) = x :: y :: r :=
      skipSpaces_cons_not_space (letter_not_space hx)
    simp [matchAfterOutward, digit_alnum hd, hskip2, matchInward_letter_head hx, hskip,
      matchInward_cons hd hx hy, oorElse]
  | s0 :: sep2, hsep =>
    rw [List.cons_append]
    have hskip1 : skipSpaces (s0 :: (sep2 ++ d :: x :: y :: r)) = d :: x :: y :: r := by
      rw [← List.cons_append]
      exact hskip
    simp [matchAfterOutward, space_not_alnum (hsep s0 (List.mem_cons_self s0 sep2)), hskip1,
      matchInward_cons hd hx hy, oorElse]

theorem matchAfterOutward_optional {g sep : List Char} {o d x y : Char} {r : List Char}
    (ho : isAlnumC o = true) (hsep : ∀ c ∈ sep, isSpaceC c = true) (hd : isDigitC d = true)
    (hx : isLetterC x = true) (hy : isLetterC y = true) :
    matchAfterOutward g (o :: (sep ++ d :: x :: y :: r)) = some (g ++ [o], [d, x, y]) := by
  have hskip : skipSpaces (sep ++ d :: x :: y :: r) = d :: x :: y :: r := by
    rw [skipSpaces_all_space hsep, skipSpaces_cons_not_space (digit_not_space hd)]
  simp [matchAfterOutward, ho, hskip, matchInward_cons hd hx hy, oorElse]

theorem matchPostcodeAt_valid {ow iw sep r : List Char} (how : ValidOutward ow)
    (hiw : ValidInward iw) (hsep : ∀ c ∈ sep, isSpaceC c = true) :
    matchPostcodeAt (ow ++ sep ++ (iw ++ r)) = some (ow, iw) := by
  obtain ⟨d2, x2, y2, hiweq, hd2, hx2, hy2⟩ := hiw
  subst hiweq
  cases how with
  | two a d ha hd =>
    show matchPostcodeAt (a :: d :: (sep ++ (d2 :: x2 :: y2 :: r))) = _
    simp [matchPostcodeAt, ha, digit_not_letter hd, hd,
      matchAfterOutward_inward hsep hd2 hx2 hy2, oorElse]
  | threeA a d x ha hd hx =>
    show matchPostcodeAt (a :: d :: (x :: (sep ++ (d2 :: x2 :: y2 :: r)))) = _
    simp [matchPostcodeAt, ha, digit_not_letter hd, hd,
      matchAfterOutward_optional hx hsep hd2 hx2 hy2, oorElse]
  | threeB a b d ha hb hd =>
    show matchPostcodeAt (a :: b :: (d :: (sep ++ (d2 :: x2 :: y2 :: r)))) = _
    simp [matchPostcodeAt, ha, hb, hd, matchAfterOutward_inward hsep hd2 hx2 hy2, oorElse]
  | four a b d x ha hb hd hx =>
    show matchPostcodeAt (a :: b :: (d :: (x :: (sep ++ (d2 :: x2 :: y2 :: r))))) = _
    simp [matchPostcodeAt, ha, hb, hd, matchAfterOutward_optional hx hsep hd2 hx2 hy2, oorElse]

theorem postcodeSearch_head {l : List Char} {g : List Char × List Char}
    (h : matchPostcodeAt l = some g) : postcodeSearch l = some g := by
  match l with
  | [] => simp [matchPostcodeAt] at h
  | c :: cs => simp [postcodeSearch, h, oorElse]

/-! ## Claim theorems -/

/-- C7: for every text consisting of a valid postcode (outward segment: one or
two letters, a digit, an optional alphanumeric; inward segment: a digit and
two letters) written with or without internal whitespace, and any trailing
text, `normalise_postcode` returns the canonical form: both matched segments
upper-cased and rejoined with exactly one space; it returns `none` for `None`,
for the empty string, and whenever the pattern search fails. -/
theorem normalise_postcode_spec :
    (∀ (ow iw sep r : List Char), ValidOutward ow → ValidInward iw →
      (∀ c ∈ sep, isSpaceC c = true) →
      normalise_postcode (some (String.mk (ow ++ sep ++ (iw ++ r)))) =
        some (String.mk (ow.map upperChar ++ ' ' :: iw.map upperChar))) ∧
    normalise_postcode none = none ∧
    normalise_postcode (some "") = none ∧
    (∀ t : String, postcodeSearch t.data = none → normalise_postcode (some t) = none) := by
  refine ⟨?_, rfl, rfl, ?_⟩
  · intro ow iw sep r how hiw hsep
    have hsearch := postcodeSearch_head (matchPostcodeAt_valid (r := r) how hiw hsep)
    have hne : strTruthy (String.mk (ow ++ sep ++ (iw ++ r))) = true := by
      cases how <;> rfl
    rw [List.append_assoc] at hsearch hne
    simp [normalise_postcode, hne, normaliseCore, hsearch]
  · intro t ht
    simp [normalise_postcode, normaliseCore, ht]

/-- C7 witness: both `"sg49qy"` and `"SG4 9QY"` canonicalize to `"SG4 9QY"`. -/
theorem normalise_postcode_spec_witness :
    normalise_postcode (some (String.mk (['s','g','4'] ++ [] ++ (['9','q','y'] ++ [])))) =
      some (String.mk (['s','g','4'].map upperChar ++ ' ' :: ['9','q','y'].map upperChar)) ∧
    normalise_postcode (some (String.mk (['S','G','4'] ++ [' '] ++ (['9','Q','Y'] ++ [])))) =
      some (String.mk (['S','G','4'].map upperChar ++ ' ' :: ['9','Q','Y'].map upperChar)) :=
  ⟨normalise_postcode_spec.1 ['s','g','4'] ['9','q','y'] [] []
      (.threeB 's' 'g' '4' (by decide) (by decide) (by decide))
      ⟨'9', 'q', 'y', rfl, by decide, by decide, by decide⟩ (by decide),
   normalise_postcode_spec.1 ['S','G','4'] ['9','Q','Y'] [' '] []
      (.threeB 'S' 'G' '4' (by decide) (by decide) (by decide))
      ⟨'9', 'Q', 'Y', rfl, by decide, by decide, by decide⟩ (by decide)⟩

/-- C9: for every non-empty input, `_clean_type_name` returns a non-empty
label; whenever stripping the trailing suffixes leaves the empty string, the
original name is returned unchanged — in particular on the inputs
`"Collection"` and `"Bin"`. -/
theorem clean_type_name_nonempty :
    (∀ name : String, name ≠ "" → cleanTypeName name ≠ "") ∧
    (∀ name : String, cleanTypeNameCore name = "" → cleanTypeName name = name) ∧
    cleanTypeName "Collection" = "Collection" ∧
    cleanTypeName "Bin" = "Bin" := by
  refine ⟨?_, ?_, by decide, by decide⟩
  · intro name h
    unfold cleanTypeName
    split
    · next ht => exact strTruthy_iff.mp ht
    · exact h
  · intro name h
    unfold cleanTypeName
    rw [h]
    simp [strTruthy]

/-- C9 witness: `"Collection"` is non-empty, strips to the empty string, and
is returned unchanged. -/
theorem clean_type_name_nonempty_witness :
    cleanTypeName "Collection" ≠ "" ∧ cleanTypeName "Collection" = "Collection" :=
  ⟨clean_type_name_nonempty.1 "Collection" (by decide),
   clean_type_name_nonempty.2.1 "Collection" (by decide)⟩

/-- C6: `_parse_date_string` is total: for every modelled input value — `None`,
a native `datetime`, a native `date` (which is not a `datetime` and so falls
through to `None`), a non-string, or any string — it returns a date or `none`;
the embedding is a plain total function, so no exception path exists. -/
theorem parse_date_total :
    (∀ v : JVal, pyParseDate v = none ∨ ∃ d, pyParseDate v = some d) ∧
    pyParseDate .null = none ∧
    (∀ d, pyParseDate (.pydatetime d) = some d) ∧
    (∀ d, pyParseDate (.pydate d) = none) ∧
    (∀ n, pyParseDate (.num n) = none) ∧
    pyParseDate (.str "not a date") = none ∧
    pyParseDate (.str "2024-99-99T99:99") = none ∧
    pyParseDate (.str "2024-03-01T00:00:00Z") = some ⟨2024, 3, 1⟩ := by
  refine ⟨fun v => ?_, rfl, fun d => rfl, fun d => rfl, fun n => rfl, by decide, by decide,
    by decide⟩
  cases h : pyParseDate v
  · exact .inl rfl
  · exact .inr ⟨_, rfl⟩

/-- C2 (amended): on the example payload the pipeline yields the two records
in ascending date order with the recycle and trash-can icons, but the labels
keep the `CollectionDetails` suffix of the block keys, since
`_clean_type_name` only strips trailing `"collection"`/`"bin"`. -/
theorem build_records_example :
    fetchEntries exPayload =
      .ok [⟨⟨2024, 3, 1⟩, "RecyclingCollectionDetails", some "mdi:recycle"⟩,
           ⟨⟨2024, 3, 4⟩, "RefuseCollectionDetails", some "mdi:trash-can"⟩] := by
  rfl

/-- C2 counterexample: the output is not the claimed pair of records labelled
`"Recycling"` and `"Refuse"`. -/
theorem build_records_example_counterexample :
    fetchEntries exPayload ≠
      .ok [⟨⟨2024, 3, 1⟩, "Recycling", some "mdi:recycle"⟩,
           ⟨⟨2024, 3, 4⟩, "Refuse", some "mdi:trash-can"⟩] := by
  decide

theorem addDates_inv (label : String) (icon : Option String) :
    ∀ (ds : List PDate) (seen : List (PDate × String)) (entries : List Collection),
    (∀ e ∈ entries, (e.date, e.t) ∈ seen) →
    (entries.map fun e => (e.date, e.t)).Nodup →
    (∀ e ∈ (addDates label icon ds seen entries).2, (e.date, e.t) ∈ (addDates label icon ds seen entries).1) ∧
    ((addDates label icon ds seen entries).2.map fun e => (e.date, e.t)).Nodup
  | [], seen, entries, h1, h2 => ⟨h1, h2⟩
  | d :: ds, seen, entries, h1, h2 => by
    by_cases hmem : (d, label) ∈ seen
    · rw [show addDates label icon (d :: ds) seen entries = addDates label icon ds seen entries
        from by simp [addDates, hmem]]
      exact addDates_inv label icon ds seen entries h1 h2
    · rw [show addDates label icon (d :: ds) seen entries =
          addDates label icon ds ((d, label) :: seen) (entries ++ [⟨d, label, icon⟩])
        from by simp [addDates, hmem]]
      refine addDates_inv label icon ds _ _ ?_ ?_
      · intro e he
        rcases List.mem_append.mp he with h | h
        · exact List.mem_cons_of_mem _ (h1 e h)
        · simp only [List.mem_singleton] at h
          subst h
          exact List.mem_cons_self _ _
      · rw [List.map_append]
        simp only [List.map_cons, List.map_nil]
        rw [List.nodup_append]
        refine ⟨h2, List.nodup_singleton _, ?_⟩
        intro p hp hq
        simp only [List.mem_singleton] at hq
        subst hq
        obtain ⟨e, he, hpe⟩ := List.mem_map.mp hp
        exact hmem (hpe ▸ h1 e he)

theorem buildLoop_inv :
    ∀ (items : List (String × JVal)) (seen : List (PDate × String)) (entries : List Collection)
    (out : List (PDate × String) × List Collection),
    (∀ e ∈ entries, (e.date, e.t) ∈ seen) →
    (entries.map fun e => (e.date, e.t)).Nodup →
    buildLoop items seen entries = .ok out →
    (out.2.map fun e => (e.date, e.t)).Nodup
  | [], seen, entries, out, _, h2, hok => by
    simp only [buildLoop] at hok
    injection hok with hout
    rw [← hout]
    exact h2
  | (key, details) :: rest, seen, entries, out, h1, h2, hok => by
    simp only [buildLoop] at hok
    split at hok
    · exact buildLoop_inv rest seen entries out h1 h2 hok
    · split at hok
      case h_1 dkvs =>
        split at hok
        · exact absurd hok (by simp)
        · refine buildLoop_inv rest _ _ out ?_ ?_ hok
          · exact (addDates_inv _ _ _ seen entries h1 h2).1
          · exact (addDates_inv _ _ _ seen entries h1 h2).2
      all_goals exact absurd hok (by simp)

theorem buildCollections_nodup (payload : JVal) (es : List Collection)
    (h : buildCollectionsE payload = .ok es) : (es.map fun e => (e.date, e.t)).Nodup := by
  unfold buildCollectionsE at h
  split at h
  case h_1 pkvs =>
    split at h
    case h_1 cdkvs heq =>
      match hi : collectionItemsE cdkvs with
      | .error e => rw [hi] at h; exact absurd h (by simp [Bind.bind, Except.bind])
      | .ok items =>
        rw [hi] at h
        simp only [Bind.bind, Except.bind] at h
        match hbl : buildLoop items [] [] with
        | .error e => rw [hbl] at h; exact absurd h (by simp)
        | .ok pr =>
          rw [hbl] at h
          injection h with h
          subst h
          exact buildLoop_inv items [] [] pr (by simp) (by simp) hbl
    all_goals exact absurd h (by simp)
  all_goals exact absurd h (by simp)

/-- C5: whenever the fetch tail succeeds, the returned record list has no two
records sharing the same `(date, label)` pair — the `seen` set spans all
detail blocks — and is sorted ascending by date. -/
theorem fetch_entries_invariants (payload : JVal) (entries : List Collection)
    (h : fetchEntries payload = .ok entries) :
    (entries.map fun e => (e.date, e.t)).Nodup ∧ entries.Sorted entryLe := by
  unfold fetchEntries at h
  match hb : buildCollectionsE payload with
  | .error e => rw [hb] at h; exact absurd h (by simp [Bind.bind, Except.bind])
  | .ok es =>
    rw [hb] at h
    simp only [Bind.bind, Except.bind] at h
    split at h
    · exact absurd h (by simp)
    · injection h with h
      subst h
      constructor
      · have hperm : List.Perm (List.insertionSort entryLe es) es :=
          List.perm_insertionSort entryLe es
        exact (List.Perm.nodup_iff (List.Perm.map _ hperm)).mpr
          (buildCollections_nodup payload es hb)
      · exact List.sorted_insertionSort entryLe es

/-- C5 witness: the invariants hold for the concrete example payload. -/
theorem fetch_entries_invariants_witness :
    (([⟨⟨2024, 3, 1⟩, "RecyclingCollectionDetails", some "mdi:recycle"⟩,
       ⟨⟨2024, 3, 4⟩, "RefuseCollectionDetails", some "mdi:trash-can"⟩] :
        List Collection).map fun e => (e.date, e.t)).Nodup ∧
    ([⟨⟨2024, 3, 1⟩, "RecyclingCollectionDetails", some "mdi:recycle"⟩,
      ⟨⟨2024, 3, 4⟩, "RefuseCollectionDetails", some "mdi:trash-can"⟩] :
        List Collection).Sorted entryLe :=
  fetch_entries_invariants exPayload _ rfl

theorem jIterE_iterable {v : JVal} (h : Iterable v) : ∃ l, jIterE v = .ok l := by
  rcases h with ⟨s, rfl⟩ | ⟨xs, rfl⟩ | ⟨kvs, rfl⟩ <;> exact ⟨_, rfl⟩

/-- C3 counterexample: date extraction is not exception-free for arbitrary
value shapes: a truthy non-dict `nextCollection` — here itself a perfectly
parseable date string — raises `AttributeError`, and a truthy non-iterable
`collectionDates` raises `TypeError`. -/
theorem extract_dates_counterexample :
    extractDatesJE (JVal.obj [("nextCollection", JVal.str "2024-03-01")]) =
      .error "AttributeError: object has no attribute get" ∧
    pyParseDate (JVal.str "2024-03-01") = some ⟨2024, 3, 1⟩ ∧
    extractDatesJE (JVal.obj [("collectionDates", JVal.num 5)]) =
      .error "TypeError: object is not iterable" :=
  ⟨rfl, by decide, rfl⟩

/-- C3 (amended): on every detail block whose container fields have the
traversable shapes — `collectionDates` and `futureCollections` falsy or
iterable, `nextCollection` falsy or a dict — `_extract_dates` never raises,
and its result contains exactly the dates of the parseable candidate values:
every unparseable value is dropped while the remaining fields are still
processed. -/
theorem extract_dates_clean (kvs : List (String × JVal)) (h : CleanDetails kvs) :
    ∃ vs, collectValuesE kvs = .ok vs ∧ extractDatesE kvs = .ok (sortedDateSet vs) ∧
      ∀ d, (d ∈ sortedDateSet vs ↔ ∃ v ∈ vs, pyParseDate v = some d) := by
  obtain ⟨h1, h2, nkvs, h3⟩ := h
  obtain ⟨l1, hl1⟩ := jIterE_iterable h1
  obtain ⟨l2, hl2⟩ := jIterE_iterable h2
  have hnv : nextCollectionValueE kvs = .ok (pyOr (pyGetField nkvs "collectionDate")
      (pyOr (pyGetField nkvs "nextCollectionDate") (pyGetField nkvs "date"))) := by
    unfold nextCollectionValueE
    rw [h3]
  have hcv : collectValuesE kvs = .ok
      ([pyGetField kvs "collectionDate", pyGetField kvs "nextCollectionDate",
        pyGetField kvs "nextCollection"] ++ l1 ++ l2.map futureEntryValue ++
        [pyOr (pyGetField nkvs "collectionDate")
          (pyOr (pyGetField nkvs "nextCollectionDate") (pyGetField nkvs "date"))]) := by
    unfold collectValuesE
    rw [hl1, hl2, hnv]
    simp [Bind.bind, Except.bind]
  refine ⟨_, hcv, ?_, ?_⟩
  · unfold extractDatesE
    rw [hcv]
    simp [Bind.bind, Except.bind]
  · intro d
    simp [sortedDateSet, List.mem_insertionSort, List.mem_dedup, List.mem_filterMap]

/-- C3 witness: the amended theorem applied to a block exercising every
traversable field shape at once. -/
theorem extract_dates_clean_witness :
    ∃ vs, collectValuesE exDetails = .ok vs ∧ extractDatesE exDetails = .ok (sortedDateSet vs) ∧
      ∀ d, (d ∈ sortedDateSet vs ↔ ∃ v ∈ vs, pyParseDate v = some d) :=
  extract_dates_clean exDetails
    ⟨Or.inr (Or.inl ⟨_, rfl⟩), Or.inr (Or.inl ⟨_, rfl⟩), ⟨_, rfl⟩⟩

theorem normalisePostcodeEV_ok {v : JVal} (h : truthy v = false ∨ ∃ s0, v = .str s0) :
    ∃ o, normalisePostcodeEV v = .ok o := by
  rcases h with hf | ⟨s0, rfl⟩
  · exact ⟨none, by simp [normalisePostcodeEV, hf]⟩
  · by_cases ht : truthy (JVal.str s0) = true
    · exact ⟨normaliseCore s0, by simp [normalisePostcodeEV, ht]⟩
    · exact ⟨none, by simp [normalisePostcodeEV, Bool.not_eq_true _ ▸ ht]⟩

theorem scoreE_ok {a : JVal} (h : AddrOk a) (s : SourceArgs) (qL : String)
    (pcL : Option String) : ∃ n, scoreE s qL pcL a = .ok n := by
  obtain ⟨kvs, rfl, hpc⟩ := h
  obtain ⟨o, ho⟩ := normalisePostcodeEV_ok hpc
  exact ⟨scoreOf s qL pcL (lowerStr (joinAddressFields kvs)) o,
    by simp [scoreE, ho, Bind.bind, Except.bind]⟩

theorem selectLoop_total (s : SourceArgs) (qL : String) (pcL : Option String) :
    ∀ (l : List JVal) (best : Int) (bestA : Option JVal),
    (∀ a ∈ l, ∃ n, scoreE s qL pcL a = .ok n) →
    ∃ b ba, selectLoop s qL pcL l best bestA = .ok (b, ba) ∧
      (ba = bestA ∨ ∃ x ∈ l, ba = some x)
  | [], best, bestA, _ => ⟨best, bestA, rfl, .inl rfl⟩
  | a :: rest, best, bestA, hsc => by
    obtain ⟨n, hn⟩ := hsc a (List.mem_cons_self a rest)
    have hr : ∀ x ∈ rest, ∃ m, scoreE s qL pcL x = .ok m :=
      fun x hx => hsc x (List.mem_cons_of_mem a hx)
    by_cases hgt : n > best
    · obtain ⟨b, ba, heq, hmem⟩ := selectLoop_total s qL pcL rest n (some a) hr
      refine ⟨b, ba, by simp [selectLoop, hn, hgt, heq], ?_⟩
      rcases hmem with hba | ⟨x, hx, hba⟩
      · exact .inr ⟨a, List.mem_cons_self a rest, hba⟩
      · exact .inr ⟨x, List.mem_cons_of_mem a hx, hba⟩
    · obtain ⟨b, ba, heq, hmem⟩ := selectLoop_total s qL pcL rest best bestA hr
      refine ⟨b, ba, by simp [selectLoop, hn, hgt, heq], ?_⟩
      rcases hmem with hba | ⟨x, hx, hba⟩
      · exact .inl hba
      · exact .inr ⟨x, List.mem_cons_of_mem a hx, hba⟩

/-- C10 counterexample: a non-empty candidate list on which `_select_address`
raises: the record's truthy non-string `postcode` field reaches `re.search`
inside `normalise_postcode`, a `TypeError`. -/
theorem select_address_counterexample :
    selectAddress {} [exNumPostcode] "" none =
      .error "TypeError: expected string or bytes-like object" ∧
    ([exNumPostcode] : List JVal) ≠ [] :=
  ⟨rfl, by simp⟩

/-- C10 (amended): on every non-empty candidate list of records whose
`postcode` field is falsy or a string, `_select_address` returns an element of
the input list — it never synthesizes a record — and on the empty list it
raises; but a record with a truthy non-string `postcode` field also makes it
raise. -/
theorem select_address_membership :
    (∀ (s : SourceArgs) (addresses : List JVal) (query : String) (postcode : Option String),
      addresses ≠ [] → (∀ a ∈ addresses, AddrOk a) →
      ∃ r, selectAddress s addresses query postcode = .ok r ∧ r ∈ addresses) ∧
    (∀ (s : SourceArgs) (query : String) (postcode : Option String),
      selectAddress s [] query postcode = .error "Address lookup returned no results.") := by
  refine ⟨?_, fun s q pc => rfl⟩
  intro s addresses q pc hne hwf
  match addresses, hne with
  | a0 :: rest, _ =>
    have hsc : ∀ a ∈ a0 :: rest, ∃ n, scoreE s (queryLowerOf q) (postcodeLowerOf pc) a = .ok n :=
      fun a ha => scoreE_ok (hwf a ha) s _ _
    obtain ⟨b, ba, heq, hmem⟩ := selectLoop_total s _ _ (a0 :: rest) (-1) none hsc
    rcases hmem with hba | ⟨x, hx, hba⟩
    · subst hba
      exact ⟨a0, by simp [selectAddress, heq], List.mem_cons_self a0 rest⟩
    · subst hba
      by_cases hb0 : b ≤ 0
      · exact ⟨a0, by simp [selectAddress, heq, hb0], List.mem_cons_self a0 rest⟩
      · exact ⟨x, by simp [selectAddress, heq, hb0], hx⟩

/-- C10 witness: the amended theorem applied to a one-record list with a
string postcode field. -/
theorem select_address_membership_witness :
    ∃ r, selectAddress {} [exGood] "" none = .ok r ∧ r ∈ [exGood] :=
  select_address_membership.1 {} [exGood] "" none (by simp)
    (fun a ha => ⟨[("fullAddress", .str "26 Benslow Rise Hitchin"), ("postcode", .str "SG4 9QY")],
      by simpa [exGood] using ha, Or.inr ⟨"SG4 9QY", rfl⟩⟩)

theorem pcScore_nonneg (pcL : Option String) (cpo : Option String) (lowered : String) :
    0 ≤ pcScore pcL cpo lowered := by
  unfold pcScore
  split
  · norm_num
  · split
    · norm_num
    · split <;> norm_num

theorem streetScore_nonneg (s : SourceArgs) (lowered : String) : 0 ≤ streetScore s lowered := by
  unfold streetScore
  split
  · split <;> norm_num
  · norm_num

theorem numberScore_nonneg (s : SourceArgs) (lowered : String) : 0 ≤ numberScore s lowered := by
  unfold numberScore
  split
  · split <;> norm_num
  · norm_num

theorem townScore_nonneg (s : SourceArgs) (lowered : String) : 0 ≤ townScore s lowered := by
  unfold townScore
  split
  · split <;> norm_num
  · norm_num

theorem queryScore_nonneg (qL : String) (lowered : String) : 0 ≤ queryScore qL lowered := by
  unfold queryScore
  split <;> norm_num

theorem scoreOf_nonneg (s : SourceArgs) (qL : String) (pcL : Option String)
    (lowered : String) (cpo : Option String) : 0 ≤ scoreOf s qL pcL lowered cpo := by
  unfold scoreOf
  have h1 := pcScore_nonneg pcL cpo lowered
  have h2 := streetScore_nonneg s lowered
  have h3 := numberScore_nonneg s lowered
  have h4 := townScore_nonneg s lowered
  have h5 := queryScore_nonneg qL lowered
  omega

theorem scoreE_nonneg {s : SourceArgs} {qL : String} {pcL : Option String} {a : JVal} {n : Int}
    (h : scoreE s qL pcL a = .ok n) : 0 ≤ n := by
  match a with
  | .obj kvs =>
    simp only [scoreE, Bind.bind, Except.bind] at h
    split at h
    · exact absurd h (by simp)
    · injection h with h
      rw [← h]
      exact scoreOf_nonneg s qL pcL _ _
  | .null => exact absurd h (by simp [scoreE])
  | .bool b => exact absurd h (by simp [scoreE])
  | .num m => exact absurd h (by simp [scoreE])
  | .str s0 => exact absurd h (by simp [scoreE])
  | .pydate d => exact absurd h (by simp [scoreE])
  | .pydatetime d => exact absurd h (by simp [scoreE])
  | .list xs => exact absurd h (by simp [scoreE])

theorem selectLoop_const (s : SourceArgs) (qL : String) (pcL : Option String) (n : Int)
    (a0 : JVal) : ∀ (rest : List JVal), (∀ b ∈ rest, scoreE s qL pcL b = .ok n) →
    selectLoop s qL pcL rest n (some a0) = .ok (n, some a0)
  | [], _ => rfl
  | b :: rest, hsc => by
    have hb := hsc b (List.mem_cons_self b rest)
    have ih := selectLoop_const s qL pcL n a0 rest
      (fun x hx => hsc x (List.mem_cons_of_mem b hx))
    simp [selectLoop, hb, ih]

theorem selectLoop_le_zero (s : SourceArgs) (qL : String) (pcL : Option String) :
    ∀ (l : List JVal) (best : Int) (bestA : Option JVal), best ≤ 0 →
    (∀ b ∈ l, ∃ nb, scoreE s qL pcL b = .ok nb ∧ nb ≤ 0) →
    ∃ b2 ba2, selectLoop s qL pcL l best bestA = .ok (b2, ba2) ∧ b2 ≤ 0
  | [], best, bestA, hb, _ => ⟨best, bestA, rfl, hb⟩
  | b :: rest, best, bestA, hb, hsc => by
    obtain ⟨nb, hnb, hle⟩ := hsc b (List.mem_cons_self b rest)
    have hr : ∀ x ∈ rest, ∃ nx, scoreE s qL pcL x = .ok nx ∧ nx ≤ 0 :=
      fun x hx => hsc x (List.mem_cons_of_mem b hx)
    by_cases hgt : nb > best
    · obtain ⟨b2, ba2, heq, hle2⟩ := selectLoop_le_zero s qL pcL rest nb (some b) hle hr
      exact ⟨b2, ba2, by simp [selectLoop, hnb, hgt, heq], hle2⟩
    · obtain ⟨b2, ba2, heq, hle2⟩ := selectLoop_le_zero s qL pcL rest best bestA hb hr
      exact ⟨b2, ba2, by simp [selectLoop, hnb, hgt, heq], hle2⟩

/-- C4: the selection heuristics of `_select_address`: a candidate with exact
normalized-postcode match and street substring match (and no other firing
signal) scores 130; one matching only the composed-query substring scores 10;
the 130-candidate is chosen over the 10-candidate in either input order;
among equal-scoring candidates the first-seen wins; and when every candidate
scores at most 0, the first candidate in input order is returned. -/
theorem select_address_scoring :
    (∀ (s : SourceArgs) (qL : String) (pcL : Option String) (kvs : List (String × JVal))
       (pl cp st : String),
      s.address_name_numer = none → s.street_town = none → s.address_street = some st →
      pcL = some pl →
      normalisePostcodeEV (pyGetField kvs "postcode") = .ok (some cp) →
      lowerStr cp = pl →
      strTruthy st = true →
      strContains (lowerStr (joinAddressFields kvs)) (lowerStr st) = true →
      queryScore qL (lowerStr (joinAddressFields kvs)) = 0 →
      scoreE s qL pcL (.obj kvs) = .ok 130) ∧
    (∀ (s : SourceArgs) (qL : String) (pcL : Option String) (kvs : List (String × JVal))
       (cpo : Option String),
      normalisePostcodeEV (pyGetField kvs "postcode") = .ok cpo →
      pcScore pcL cpo (lowerStr (joinAddressFields kvs)) = 0 →
      streetScore s (lowerStr (joinAddressFields kvs)) = 0 →
      numberScore s (lowerStr (joinAddressFields kvs)) = 0 →
      townScore s (lowerStr (joinAddressFields kvs)) = 0 →
      strTruthy qL = true →
      strContains (lowerStr (joinAddressFields kvs)) qL = true →
      scoreE s qL pcL (.obj kvs) = .ok 10) ∧
    (∀ (s : SourceArgs) (q : String) (pc : Option String) (aG aB : JVal),
      scoreE s (queryLowerOf q) (postcodeLowerOf pc) aG = .ok 130 →
      scoreE s (queryLowerOf q) (postcodeLowerOf pc) aB = .ok 10 →
      selectAddress s [aG, aB] q pc = .ok aG ∧ selectAddress s [aB, aG] q pc = .ok aG) ∧
    (∀ (s : SourceArgs) (q : String) (pc : Option String) (a0 : JVal) (rest : List JVal)
       (n : Int),
      scoreE s (queryLowerOf q) (postcodeLowerOf pc) a0 = .ok n →
      (∀ b ∈ rest, scoreE s (queryLowerOf q) (postcodeLowerOf pc) b = .ok n) →
      selectAddress s (a0 :: rest) q pc = .ok a0) ∧
    (∀ (s : SourceArgs) (q : String) (pc : Option String) (a0 : JVal) (rest : List JVal),
      (∀ b ∈ a0 :: rest, ∃ nb,
        scoreE s (queryLowerOf q) (postcodeLowerOf pc) b = .ok nb ∧ nb ≤ 0) →
      selectAddress s (a0 :: rest) q pc = .ok a0) := by
  refine ⟨?_, ?_, ?_, ?_, ?_⟩
  · intro s qL pcL kvs pl cp st hnum htown hst hpl hEV hcp hstt hstc hq
    simp only [scoreE, Bind.bind, Except.bind, hEV]
    have hpc : pcScore pcL (some cp) (lowerStr (joinAddressFields kvs)) = 100 := by
      unfold pcScore
      rw [hpl]
      simp [hcp]
    have hstreet : streetScore s (lowerStr (joinAddressFields kvs)) = 30 := by
      unfold streetScore
      rw [hst]
      simp [hstt, hstc]
    have hn : numberScore s (lowerStr (joinAddressFields kvs)) = 0 := by
      unfold numberScore
      rw [hnum]
    have ht : townScore s (lowerStr (joinAddressFields kvs)) = 0 := by
      unfold townScore
      rw [htown]
    unfold scoreOf
    rw [hpc, hstreet, hn, ht, hq]
    norm_num
  · intro s qL pcL kvs cpo hEV hpc hstreet hn ht hqt hqc
    simp only [scoreE, Bind.bind, Except.bind, hEV]
    have hq : queryScore qL (lowerStr (joinAddressFields kvs)) = 10 := by
      unfold queryScore
      simp [hqt, hqc]
    unfold scoreOf
    rw [hpc, hstreet, hn, ht, hq]
    norm_num
  · intro s q pc aG aB hG hB
    constructor
    · have h1 : selectLoop s (queryLowerOf q) (postcodeLowerOf pc) [aG, aB] (-1) none =
          .ok (130, some aG) := by
        simp [selectLoop, hG, hB]
      simp [selectAddress, h1]
    · have h1 : selectLoop s (queryLowerOf q) (postcodeLowerOf pc) [aB, aG] (-1) none =
          .ok (130, some aG) := by
        simp [selectLoop, hG, hB]
      simp [selectAddress, h1]
  · intro s q pc a0 rest n h0 hrest
    have hnn : 0 ≤ n := scoreE_nonneg h0
    have h1 : selectLoop s (queryLowerOf q) (postcodeLowerOf pc) (a0 :: rest) (-1) none =
        .ok (n, some a0) := by
      have hgt : n > -1 := by omega
      simp [selectLoop, h0, hgt, selectLoop_const s _ _ n a0 rest hrest]
    by_cases hle : n ≤ 0
    · simp [selectAddress, h1, hle]
    · simp [selectAddress, h1, hle]
  · intro s q pc a0 rest hsc
    obtain ⟨b2, ba2, heq, hle⟩ :=
      selectLoop_le_zero s (queryLowerOf q) (postcodeLowerOf pc) (a0 :: rest) (-1) none
        (by omega) hsc
    rcases ba2 with _ | x
    · simp [selectAddress, heq]
    · simp [selectAddress, heq, hle]

/-- C4 witness: the scoring theorem instantiated on concrete candidates:
the postcode-and-street candidate scores 130, the query-substring candidate
scores 10, the former wins from second position, a duplicate-score pair keeps
the first, and an all-zero list returns its first element. -/
theorem select_address_scoring_witness :
    scoreE exScoreArgs (queryLowerOf "somewhere") (postcodeLowerOf (some "SG4 9QY")) exGood =
      .ok 130 ∧
    scoreE exScoreArgs (queryLowerOf "somewhere") (postcodeLowerOf (some "SG4 9QY")) exBad =
      .ok 10 ∧
    selectAddress exScoreArgs [exBad, exGood] "somewhere" (some "SG4 9QY") = .ok exGood ∧
    selectAddress exScoreArgs [exBad, exBad] "somewhere" (some "SG4 9QY") = .ok exBad ∧
    selectAddress exScoreArgs [exZero] "nothing" none = .ok exZero :=
  ⟨select_address_scoring.1 exScoreArgs (queryLowerOf "somewhere")
      (postcodeLowerOf (some "SG4 9QY"))
      [("fullAddress", .str "26 Benslow Rise Hitchin"), ("postcode", .str "SG4 9QY")]
      "sg4 9qy" "SG4 9QY" "Benslow Rise" rfl rfl rfl (by decide) (by decide) (by decide)
      (by decide) (by decide) (by decide),
   select_address_scoring.2.1 exScoreArgs (queryLowerOf "somewhere")
      (postcodeLowerOf (some "SG4 9QY")) [("fullAddress", .str "somewhere else")] none
      (by decide) (by decide) (by decide) (by decide) (by decide) (by decide) (by decide),
   (select_address_scoring.2.2.1 exScoreArgs "somewhere" (some "SG4 9QY") exGood exBad
      (by decide) (by decide)).2,
   select_address_scoring.2.2.2.1 exScoreArgs "somewhere" (some "SG4 9QY") exBad [exBad] 10
      (by decide) (fun b hb => by rw [List.mem_singleton.mp hb]; decide),
   select_address_scoring.2.2.2.2 exScoreArgs "nothing" none exZero []
      (fun b hb => ⟨0, by rw [List.mem_singleton.mp hb]; decide, by norm_num⟩)⟩

theorem runAttempts_eq (oracle : String → String → List (String × JVal)) :
    ∀ (l : List (String × Option String)) (seen : List (String × String)),
    runAttempts oracle l seen = scanCalls oracle (specFilterAttempts l seen)
  | [], _ => rfl
  | (param, value) :: rest, seen => by
    by_cases h1 : strTruthy (trimStr (value.getD "")) = true
    · by_cases h2 : (param, lowerStr (trimStr (value.getD ""))) ∈ seen
      · have ih := runAttempts_eq oracle rest seen
        simp [runAttempts, specFilterAttempts, h1, h2, ih]
      · have ih := runAttempts_eq oracle rest
          ((param, lowerStr (trimStr (value.getD ""))) :: seen)
        cases hla : listAddr (oracle param (trimStr (value.getD ""))) with
        | some xs => simp [runAttempts, specFilterAttempts, scanCalls, h1, h2, hla]
        | none => simp [runAttempts, specFilterAttempts, scanCalls, h1, h2, hla, ih]
    · rw [Bool.not_eq_true] at h1
      have ih := runAttempts_eq oracle rest seen
      simp [runAttempts, specFilterAttempts, h1, ih]

theorem scanCalls_take (oracle : String → String → List (String × JVal)) :
    ∀ l, ∃ k, (scanCalls oracle l).1 = l.take k
  | [] => ⟨0, rfl⟩
  | (p, c) :: rest => by
    cases hla : listAddr (oracle p c) with
    | some xs => exact ⟨1, by simp [scanCalls, hla]⟩
    | none =>
      obtain ⟨k, hk⟩ := scanCalls_take oracle rest
      exact ⟨k + 1, by simp [scanCalls, hla, hk]⟩

theorem scanCalls_all_fail (oracle : String → String → List (String × JVal)) :
    ∀ l, (∀ a ∈ l, listAddr (oracle a.1 a.2) = none) → scanCalls oracle l = (l, none)
  | [], _ => rfl
  | (p, c) :: rest, h => by
    have h0 := h (p, c) (List.mem_cons_self _ _)
    have ih := scanCalls_all_fail oracle rest (fun a ha => h a (List.mem_cons_of_mem _ ha))
    simp [scanCalls, h0, ih]

theorem specFilter_keys :
    ∀ (l : List (String × Option String)) (seen : List (String × String)),
    (∀ x ∈ specFilterAttempts l seen, attemptKey x ∉ seen) ∧
      ((specFilterAttempts l seen).map attemptKey).Nodup
  | [], _ => ⟨by simp [specFilterAttempts], by simp [specFilterAttempts]⟩
  | (param, value) :: rest, seen => by
    by_cases h1 : strTruthy (trimStr (value.getD "")) = true
    · by_cases h2 : (param, lowerStr (trimStr (value.getD ""))) ∈ seen
      · have ih := specFilter_keys rest seen
        constructor
        · intro x hx
          refine ih.1 x ?_
          simpa [specFilterAttempts, h1, h2] using hx
        · have : specFilterAttempts ((param, value) :: rest) seen =
              specFilterAttempts rest seen := by simp [specFilterAttempts, h1, h2]
          rw [this]
          exact ih.2
      · have ih := specFilter_keys rest ((param, lowerStr (trimStr (value.getD ""))) :: seen)
        have hcons : specFilterAttempts ((param, value) :: rest) seen =
            (param, trimStr (value.getD "")) ::
              specFilterAttempts rest ((param, lowerStr (trimStr (value.getD ""))) :: seen) := by
          simp [specFilterAttempts, h1, h2]
        rw [hcons]
        constructor
        · intro x hx
          rcases List.mem_cons.mp hx with rfl | hx2
          · exact h2
          · intro hmem
            exact ih.1 x hx2 (List.mem_cons_of_mem _ hmem)
        · rw [List.map_cons, List.nodup_cons]
          refine ⟨?_, ih.2⟩
          intro hmem
          obtain ⟨x, hx, hkey⟩ := List.mem_map.mp hmem
          exact ih.1 x hx (hkey ▸ List.mem_cons_self _ _)
    · rw [Bool.not_eq_true] at h1
      have ih := specFilter_keys rest seen
      constructor
      · intro x hx
        refine ih.1 x ?_
        simpa [specFilterAttempts, h1] using hx
      · have : specFilterAttempts ((param, value) :: rest) seen =
            specFilterAttempts rest seen := by simp [specFilterAttempts, h1]
        rw [this]
        exact ih.2

/-- C8 (amended): the calls `_lookup_addresses` issues are exactly the fixed
ordered attempt list, filtered of empty-after-trim texts and of
`(parameter, lower-cased trimmed text)` duplicates, truncated at the first
response carrying a list-typed `addresses` field: always a prefix of the
filtered list, the whole filtered list when no response carries one, and
never containing a duplicated attempt key. -/
theorem lookup_attempts_dedup (s : SourceArgs)
    (oracle : String → String → List (String × JVal)) (query : String)
    (postcode : Option String) :
    (∃ k, (lookupAddresses s oracle query postcode).1 =
      (specFilterAttempts (attemptsList s query postcode) []).take k) ∧
    ((∀ a ∈ specFilterAttempts (attemptsList s query postcode) [],
        listAddr (oracle a.1 a.2) = none) →
      (lookupAddresses s oracle query postcode).1 =
        specFilterAttempts (attemptsList s query postcode) []) ∧
    ((lookupAddresses s oracle query postcode).1.map attemptKey).Nodup := by
  have heq : (lookupAddresses s oracle query postcode).1 =
      (scanCalls oracle (specFilterAttempts (attemptsList s query postcode) [])).1 := by
    unfold lookupAddresses
    rw [runAttempts_eq]
  refine ⟨?_, ?_, ?_⟩
  · rw [heq]
    exact scanCalls_take oracle _
  · intro hall
    rw [heq, scanCalls_all_fail oracle _ hall]
  · rw [heq]
    obtain ⟨k, hk⟩ :=
      scanCalls_take oracle (specFilterAttempts (attemptsList s query postcode) [])
    rw [hk, List.map_take]
    exact List.Nodup.sublist (List.take_sublist _ _)
      (specFilter_keys (attemptsList s query postcode) []).2

/-- C8 witness: the amended theorem at the concrete scenario, with the
all-fail implication discharged against an oracle returning no list at all. -/
theorem lookup_attempts_dedup_witness :
    (∃ k, (lookupAddresses exArgs (fun _ _ => []) (composeSearchQuery exArgs)
        (normalise_postcode exArgs.address_postcode)).1 =
      (specFilterAttempts (attemptsList exArgs (composeSearchQuery exArgs)
        (normalise_postcode exArgs.address_postcode)) []).take k) ∧
    (lookupAddresses exArgs (fun _ _ => []) (composeSearchQuery exArgs)
        (normalise_postcode exArgs.address_postcode)).1 =
      specFilterAttempts (attemptsList exArgs (composeSearchQuery exArgs)
        (normalise_postcode exArgs.address_postcode)) [] ∧
    ((lookupAddresses exArgs (fun _ _ => []) (composeSearchQuery exArgs)
        (normalise_postcode exArgs.address_postcode)).1.map attemptKey).Nodup :=
  ⟨(lookup_attempts_dedup exArgs (fun _ _ => []) (composeSearchQuery exArgs)
      (normalise_postcode exArgs.address_postcode)).1,
   (lookup_attempts_dedup exArgs (fun _ _ => []) (composeSearchQuery exArgs)
      (normalise_postcode exArgs.address_postcode)).2.1 (fun _ _ => rfl),
   (lookup_attempts_dedup exArgs (fun _ _ => []) (composeSearchQuery exArgs)
      (normalise_postcode exArgs.address_postcode)).2.2⟩

/-- C8 counterexample: when the very first attempt already yields a list, the
issued-call sequence is a strict prefix of the filtered attempt list, not
equal to it. -/
theorem lookup_attempts_counterexample :
    (lookupAddresses exArgs exOracle (composeSearchQuery exArgs)
        (normalise_postcode exArgs.address_postcode)).1 = [("postcode", "SG4 9QY")] ∧
    specFilterAttempts (attemptsList exArgs (composeSearchQuery exArgs)
        (normalise_postcode exArgs.address_postcode)) [] =
      [("postcode", "SG4 9QY"), ("address", "SG4 9QY"), ("query", "SG4 9QY")] ∧
    [(("postcode" : String), ("SG4 9QY" : String))] ≠
      [("postcode", "SG4 9QY"), ("address", "SG4 9QY"), ("query", "SG4 9QY")] :=
  ⟨rfl, rfl, by decide⟩

/-- C1 (amended): when the first deduplicated attempt's response carries no
list-typed `addresses` field and the second's carries a one-record list, the
chain continues past the first and returns exactly that record, issuing
exactly those two calls; the loop stops at the first response whose
`addresses` field is a list — even an empty one. -/
theorem lookup_fallback_chain (s : SourceArgs)
    (oracle : String → String → List (String × JVal)) (query : String)
    (postcode : Option String) (pa ca pb cb : String) (rest : List (String × String))
    (r : JVal)
    (hf : specFilterAttempts (attemptsList s query postcode) [] = (pa, ca) :: (pb, cb) :: rest)
    (h1 : listAddr (oracle pa ca) = none)
    (h2 : listAddr (oracle pb cb) = some [r]) :
    (lookupAddresses s oracle query postcode).2 = .ok [r] ∧
    (lookupAddresses s oracle query postcode).1 = [(pa, ca), (pb, cb)] := by
  have heq : runAttempts oracle (attemptsList s query postcode) [] =
      scanCalls oracle (specFilterAttempts (attemptsList s query postcode) []) :=
    runAttempts_eq oracle _ _
  rw [hf] at heq
  have hscan : scanCalls oracle ((pa, ca) :: (pb, cb) :: rest) =
      ([(pa, ca), (pb, cb)], some [r]) := by
    simp [scanCalls, h1, h2]
  rw [hscan] at heq
  constructor <;> simp [lookupAddresses, heq]

/-- C1 witness: an oracle whose `postcode` response has no `addresses` list at
all and whose `address` response carries one record: the chain skips to the
second attempt and returns the record. -/
theorem lookup_fallback_chain_witness :
    (lookupAddresses exArgs
        (fun param _ => if param == "address" then [("addresses", .list [exRecord])] else [])
        (composeSearchQuery exArgs) (normalise_postcode exArgs.address_postcode)).2 =
      .ok [exRecord] ∧
    (lookupAddresses exArgs
        (fun param _ => if param == "address" then [("addresses", .list [exRecord])] else [])
        (composeSearchQuery exArgs) (normalise_postcode exArgs.address_postcode)).1 =
      [("postcode", "SG4 9QY"), ("address", "SG4 9QY")] :=
  lookup_fallback_chain exArgs
    (fun param _ => if param == "address" then [("addresses", .list [exRecord])] else [])
    (composeSearchQuery exArgs) (normalise_postcode exArgs.address_postcode)
    "postcode" "SG4 9QY" "address" "SG4 9QY" [("query", "SG4 9QY")] exRecord rfl rfl rfl

/-- C1 counterexample: the first attempt's response carries an empty candidate
list and a later attempt's response a one-record list, yet the chain stops at
the empty list and returns it — it does not continue to the non-empty one. -/
theorem lookup_fallback_counterexample :
    listAddr (exOracle "postcode" "SG4 9QY") = some [] ∧
    listAddr (exOracle "address" "SG4 9QY") = some [exRecord] ∧
    (lookupAddresses exArgs exOracle (composeSearchQuery exArgs)
        (normalise_postcode exArgs.address_postcode)).2 = .ok [] ∧
    (lookupAddresses exArgs exOracle (composeSearchQuery exArgs)
        (normalise_postcode exArgs.address_postcode)).1 = [("postcode", "SG4 9QY")] ∧
    ([] : List JVal) ≠ [exRecord] :=
  ⟨rfl, rfl, rfl, rfl, by simp⟩
